import Mathlib

/-!
Verification development for the GeoScraper repository
(`src/geo_scraper.py`, `src/utils.py`, `src/wikimapia_scraper.py`).

The Python source is shallowly embedded below.  Pure helpers become Lean
functions; the asyncio queue and the crawl loop become explicit state
passing over executable state types; code that can raise becomes
`Option`/`Except`.  Library calls made by the source (`urllib.parse`,
`str.casefold`, `float`, ...) are modelled by executable Lean functions
that follow the CPython implementations on the fragment exercised by the
program (ASCII text, `;`-free URLs, finite decimal floats); the modelling
boundaries are noted at each definition.

Python floats produced by `float(...)` of decimal literals are modelled
exactly as a decimal mantissa/exponent pair (`PyFloat`); no claim below
depends on IEEE-754 rounding, and the special forms `inf`/`nan`/digit
underscores accepted by CPython are outside the model.
-/

/-- Split a character list at every occurrence of `sep`
(Python `str.split(sep)` for a one-character separator). -/
def splitOnChar (sep : Char) : List Char → List (List Char)
  | [] => [[]]
  | c :: cs =>
    if c = sep then
      [] :: splitOnChar sep cs
    else
      match splitOnChar sep cs with
      | g :: gs => (c :: g) :: gs
      | [] => [[c]]

/-- Split at the first occurrence of `sep`, dropping it
(Python `str.split(sep, 1)` when the separator occurs). -/
def splitFirst (sep : Char) : List Char → Option (List Char × List Char)
  | [] => none
  | c :: cs =>
    if c = sep then some ([], cs)
    else
      match splitFirst sep cs with
      | some (a, b) => some (c :: a, b)
      | none => none

/-- Python `str.startswith` on the underlying characters. -/
def strStartsWith (s pre : String) : Bool :=
  pre.data.isPrefixOf s.data

/-- ASCII lowercasing, `Char.toLower` is the identity beyond ASCII. -/
def lowerStr (s : String) : String :=
  String.mk (s.data.map Char.toLower)

/-- `utils.normalize_caseless`: `unicodedata.normalize("NFKD", text.casefold())`.
Modelled as ASCII lowercasing, which coincides with NFKD∘casefold on the
ASCII strings the program compares; full Unicode folding/normalization
tables are outside the model. -/
def normalize_caseless (text : String) : String :=
  lowerStr text

/-- `utils.caseless_equal`. -/
def caseless_equal (left right : String) : Bool :=
  normalize_caseless left == normalize_caseless right

/-- Result of `urllib.parse.urlsplit` (the `params` component of
`urlparse` is left inside `path`; the program never uses `;` URLs). -/
structure UrlSplitResult where
  scheme : String
  netloc : String
  path : String
  query : String
  fragment : String
deriving DecidableEq, Repr

/-- Characters allowed in a URL scheme (`urllib.parse.scheme_chars`). -/
def schemeChar (c : Char) : Bool :=
  c.isAlpha || c.isDigit || c = '+' || c = '-' || c = '.'

/-- Scheme recognition of CPython `urlsplit`: a `:` at position `> 0`,
first character an ASCII letter, all preceding characters scheme chars.
Returns the lowercased scheme and the remainder. -/
def splitScheme (cs : List Char) : Option (List Char × List Char) :=
  match splitFirst ':' cs with
  | none => none
  | some (before, after) =>
    match before with
    | [] => none
    | c0 :: _ =>
      if c0.isAlpha && before.all schemeChar then
        some (before.map Char.toLower, after)
      else
        none

/-- Model of `urllib.parse.urlsplit` (control-character stripping that
CPython applies to hostile URLs is not modelled). -/
def urlsplit (url : String) : UrlSplitResult :=
  let cs := url.data
  let (scheme, rest) :=
    match splitScheme cs with
    | some (s, r) => (s, r)
    | none => (([] : List Char), cs)
  let (netloc, rest) :=
    match rest with
    | '/' :: '/' :: r =>
      let p := r.span (fun c => !(c = '/' || c = '?' || c = '#'))
      (p.1, p.2)
    | _ => (([] : List Char), rest)
  let (rest, fragment) :=
    match splitFirst '#' rest with
    | some (a, b) => (a, b)
    | none => (rest, ([] : List Char))
  let (path, query) :=
    match splitFirst '?' rest with
    | some (a, b) => (a, b)
    | none => (rest, ([] : List Char))
  ⟨String.mk scheme, String.mk netloc, String.mk path, String.mk query, String.mk fragment⟩

/-- Model of `urllib.parse.urlunsplit`. -/
def urlunsplit (u : UrlSplitResult) : String :=
  let url := u.path
  let url :=
    if u.netloc ≠ "" || strStartsWith url "//" then
      let url := if url ≠ "" && !strStartsWith url "/" then "/" ++ url else url
      "//" ++ u.netloc ++ url
    else url
  let url := if u.scheme ≠ "" then u.scheme ++ ":" ++ url else url
  let url := if u.query ≠ "" then url ++ "?" ++ u.query else url
  if u.fragment ≠ "" then url ++ "#" ++ u.fragment else url

/-- `urllib.parse.uses_relative`. -/
def uses_relative : List String :=
  ["", "ftp", "http", "gopher", "nntp", "imap", "wais", "file", "https",
   "shttp", "mms", "prospero", "rtsp", "rtspu", "sftp", "svn", "svn+ssh",
   "ws", "wss"]

/-- `urllib.parse.uses_netloc`. -/
def uses_netloc : List String :=
  ["", "ftp", "http", "gopher", "nntp", "telnet", "imap", "wais", "file",
   "mms", "https", "shttp", "snews", "prospero", "rtsp", "rtspu", "rsync",
   "svn", "svn+ssh", "sftp", "nfs", "git", "git+ssh", "ws", "wss"]

/-- `path.split('/')` returning strings. -/
def splitSlash (s : String) : List String :=
  (splitOnChar '/' s.data).map String.mk

/-- `'/'.join(l)`. -/
def joinSlash : List String → String
  | [] => ""
  | [x] => x
  | x :: xs => x ++ "/" ++ joinSlash xs

/-- The `segments[1:-1] = filter(None, segments[1:-1])` step of CPython
`urljoin`: drop empty segments, keeping the first and last elements. -/
def filterMiddleAux : List String → List String
  | [] => []
  | [x] => [x]
  | x :: xs => if x = "" then filterMiddleAux xs else x :: filterMiddleAux xs

def filterMiddle : List String → List String
  | [] => []
  | [x] => [x]
  | x :: xs => x :: filterMiddleAux xs

/-- The dot-segment resolution loop of CPython `urljoin`
(`'..'` pops, ignoring underflow; `'.'` is dropped). -/
def resolveSegments (segments : List String) : List String :=
  segments.foldl
    (fun acc seg =>
      if seg = ".." then acc.dropLast
      else if seg = "." then acc
      else acc ++ [seg])
    []

/-- Model of `urllib.parse.urljoin` (via `urlsplit`, so `;` path params
are treated as path characters). -/
def urljoin (base url : String) : String :=
  if base = "" then url
  else if url = "" then base
  else
    let b := urlsplit base
    let u := urlsplit url
    let scheme := if u.scheme = "" then b.scheme else u.scheme
    if scheme ≠ b.scheme || !uses_relative.contains scheme then url
    else if uses_netloc.contains scheme && u.netloc ≠ "" then
      urlunsplit ⟨scheme, u.netloc, u.path, u.query, u.fragment⟩
    else
      let netloc := if uses_netloc.contains scheme then b.netloc else u.netloc
      if u.path = "" then
        let query := if u.query = "" then b.query else u.query
        urlunsplit ⟨scheme, netloc, b.path, query, u.fragment⟩
      else
        let segments :=
          if strStartsWith u.path "/" then splitSlash u.path
          else
            let baseParts := splitSlash b.path
            let baseParts :=
              if baseParts.getLastD "" ≠ "" then baseParts.dropLast else baseParts
            filterMiddle (baseParts ++ splitSlash u.path)
        let resolved := resolveSegments segments
        let lastSeg := segments.getLastD ""
        let resolved := if lastSeg = "." || lastSeg = ".." then resolved ++ [""] else resolved
        let path := if joinSlash resolved = "" then "/" else joinSlash resolved
        urlunsplit ⟨scheme, netloc, path, u.query, u.fragment⟩

/-- `utils.is_base_url`: same netloc and the base path is a string
prefix of the url path. -/
def is_base_url (url baseurl : String) : Bool :=
  (urlsplit url).netloc == (urlsplit baseurl).netloc
    && strStartsWith (urlsplit url).path (urlsplit baseurl).path

example : urljoin "https://wikimapia.org/country/" "/15002/Arad" = "https://wikimapia.org/15002/Arad" := by decide
example : urljoin "https://wikimapia.org/country/X/" "Y/" = "https://wikimapia.org/country/X/Y/" := by decide
example : urljoin "https://wikimapia.org/country/X/" "place" = "https://wikimapia.org/country/X/place" := by decide
example : urljoin "https://wikimapia.org/country/X/" "/#lang=en&lat=1.5&lon=2.5" = "https://wikimapia.org/#lang=en&lat=1.5&lon=2.5" := by decide
example : is_base_url "https://wikimapia.org/country/X/Y/" "https://wikimapia.org/country/X/" = true := by decide
example : is_base_url "https://wikimapia.org/15002/Arad" "https://wikimapia.org/country/X/" = false := by decide
example : caseless_equal "ARAD" "arad" = true := by decide

/-! ## Python `float` of decimal literals -/

/-- A Python float produced by `float(...)` on a finite decimal literal,
represented exactly: the value is `mant * 10 ^ exp10`. -/
structure PyFloat where
  mant : Int
  exp10 : Int
deriving DecidableEq, Repr

/-- Python `str.strip()` whitespace characters (ASCII fragment). -/
def pyWhitespace (c : Char) : Bool :=
  c = ' ' || c = '\t' || c = '\n' || c = '\r' || c = '\x0b' || c = '\x0c'

def pyStrip (cs : List Char) : List Char :=
  ((cs.dropWhile pyWhitespace).reverse.dropWhile pyWhitespace).reverse

def digitsToNat (ds : List Char) : Nat :=
  ds.foldl (fun n c => 10 * n + (c.toNat - 48)) 0

def takeDigits (cs : List Char) : List Char × List Char :=
  (cs.takeWhile Char.isDigit, cs.dropWhile Char.isDigit)

def parseSign : List Char → Int × List Char
  | '+' :: r => (1, r)
  | '-' :: r => (-1, r)
  | r => (1, r)

/-- Parse the optional exponent tail `([eE][+-]?digits)?` that must consume
the whole remainder. -/
def parseExpTail : List Char → Option Int
  | [] => some 0
  | c :: r =>
    if c = 'e' || c = 'E' then
      let (s, r2) := parseSign r
      let (ds, r3) := takeDigits r2
      if !ds.isEmpty && r3.isEmpty then some (s * (digitsToNat ds : Int)) else none
    else none

/-- Model of CPython `float(str)` on finite decimal literals:
optional sign, digits with optional fractional part, optional exponent,
surrounding whitespace stripped.  `inf`/`nan` and digit underscores
(which CPython also accepts) are outside the model; no claim below
involves them. -/
def pyFloat (str : String) : Option PyFloat :=
  let cs := pyStrip str.data
  let (sign, r1) := parseSign cs
  let (ip, r2) := takeDigits r1
  let (fp, r3) :=
    match r2 with
    | '.' :: r => takeDigits r
    | _ => (([] : List Char), r2)
  if ip.isEmpty && fp.isEmpty then none
  else
    match parseExpTail r3 with
    | none => none
    | some e => some ⟨sign * (digitsToNat (ip ++ fp) : Int), e - (fp.length : Int)⟩

example : pyFloat "-14.260057" = some ⟨-14260057, -6⟩ := by decide
example : pyFloat "13" = some ⟨13, 0⟩ := by decide
example : pyFloat ".5e2" = some ⟨5, 1⟩ := by decide
example : pyFloat "w" = none := by decide
example : pyFloat "" = none := by decide
example : pyFloat "1x" = none := by decide

/-! ## `urllib.parse.parse_qs` -/

/-- The value of one hex digit (codepoints written out: 48..57 are the
decimal digits, 97..102 and 65..70 the lower/upper hex letters). -/
def hexVal (c : Char) : Option Nat :=
  let n := c.toNat
  if 48 ≤ n ∧ n ≤ 57 then some (n - 48)
  else if 97 ≤ n ∧ n ≤ 102 then some (n - 87)
  else if 65 ≤ n ∧ n ≤ 70 then some (n - 55)
  else none

/-- Model of `urllib.parse.unquote_plus` on ASCII text: `+` becomes a
space; `%hh` with `hh < 0x80` decodes to the ASCII character, other
decoded bytes are replaced (CPython would attempt UTF-8 decoding);
invalid escapes are kept literally. -/
def pyUnquotePlus : List Char → List Char
  | [] => []
  | '+' :: rest => ' ' :: pyUnquotePlus rest
  | '%' :: a :: b :: rest =>
    (match hexVal a, hexVal b with
     | some x, some y =>
       let n := 16 * x + y
       (if n < 128 then Char.ofNat n else '�') :: pyUnquotePlus rest
     | _, _ => '%' :: pyUnquotePlus (a :: b :: rest))
  | c :: rest => c :: pyUnquotePlus rest

/-- Model of `urllib.parse.parse_qsl` with default arguments: split the
query on `&`, skip empty fields, skip fields without `=`, skip fields
with an empty value, unquote names and values. -/
def parse_qsl (query : List Char) : List (String × String) :=
  (splitOnChar '&' query).filterMap fun nv =>
    if nv.isEmpty then none
    else
      match splitFirst '=' nv with
      | none => none
      | some (n, v) =>
        if v.isEmpty then none
        else some (String.mk (pyUnquotePlus n), String.mk (pyUnquotePlus v))

/-- `parse_qs` groups `parse_qsl` pairs into a dict of value lists,
keyed in first-occurrence order. -/
def qsGroup (pairs : List (String × String)) : List (String × List String) :=
  pairs.foldl
    (fun acc kv =>
      if acc.any (fun e => e.1 = kv.1) then
        acc.map (fun e => if e.1 = kv.1 then (e.1, e.2 ++ [kv.2]) else e)
      else acc ++ [(kv.1, [kv.2])])
    []

def parse_qs (query : List Char) : List (String × List String) :=
  qsGroup (parse_qsl query)

example : parse_qs "lat=-14.260057&lon=-170.649948&z=13&m=w".data
    = [("lat", ["-14.260057"]), ("lon", ["-170.649948"]), ("z", ["13"]), ("m", ["w"])] := by decide
example : parse_qs "a=1&a=2&b=&c".data = [("a", ["1", "2"])] := by decide

/-! ## `wikimapia_scraper.py`: coordinate parsing -/

/-- Index of the first occurrence of `pat` in `cs`. -/
def findSubstrIdx (cs pat : List Char) : Option Nat :=
  match cs with
  | [] => if pat.isEmpty then some 0 else none
  | _ :: rest =>
    if pat.isPrefixOf cs then some 0
    else (findSubstrIdx rest pat).map (· + 1)

/-- `re.sub(r'^.*?lat', '?lat', map_url)`: the non-greedy anchored
pattern replaces the shortest leading prefix ending in the first literal
`lat` by `?lat`; with no `lat` present the string is unchanged (the `^`
anchor allows at most one substitution). -/
def reSubLat (map_url : String) : String :=
  match findSubstrIdx map_url.data ['l', 'a', 't'] with
  | some i => "?lat" ++ String.mk (map_url.data.drop (i + 3))
  | none => map_url

/-- A flattened query-parameter value: `params[key][0]` when the value
list has exactly one element, else the list itself. -/
inductive PVal where
  | single (s : String)
  | multi (l : List String)
deriving DecidableEq, Repr

def flattenParams (ps : List (String × List String)) : List (String × PVal) :=
  ps.map fun kv =>
    (kv.1, match kv.2 with
           | [v] => PVal.single v
           | l => PVal.multi l)

/-- `WikimapiaCrawler.get_params_from_map_url`. -/
def get_params_from_map_url (map_url : String) : List (String × PVal) :=
  flattenParams (parse_qs (urlsplit (reSubLat map_url)).query.data)

/-- Python truthiness of a flattened parameter value. -/
def pvalTruthy : PVal → Bool
  | .single s => s ≠ ""
  | .multi l => !l.isEmpty

/-- `float(value)` on a flattened value: a list raises `TypeError`
(caught by the caller), a string parses as a float. -/
def pvalFloat : PVal → Option PyFloat
  | .single s => pyFloat s
  | .multi _ => none

/-- The numeric content of a `GeoPoint` (the `lon`/`lat` keyword
arguments of its constructor). -/
structure GeoPointVal where
  lon : PyFloat
  lat : PyFloat
deriving DecidableEq, Repr

/-- `WikimapiaCrawler.get_point_from_map_url`: the `try`/`except` makes
this total; any failure (missing or falsy `lat`/`lon`, list-valued
parameter, unparseable float) returns `None`. -/
def get_point_from_map_url (map_url : String) : Option GeoPointVal :=
  let ps := get_params_from_map_url map_url
  match ps.lookup "lat", ps.lookup "lon" with
  | some lv, some ov =>
    if pvalTruthy lv && pvalTruthy ov then
      match pvalFloat lv, pvalFloat ov with
      | some la, some lo => some ⟨lo, la⟩
      | _, _ => none
    else none
  | _, _ => none

/-- `get_point_from_map_url` applied to `a_tags[1].get('href')`: a
missing attribute gives `None`, on which `re.sub` raises `TypeError`,
caught by the `except` — so no point. -/
def get_point_from_map_href : Option String → Option GeoPointVal
  | none => none
  | some m => get_point_from_map_url m

example : get_point_from_map_url "/#lang=en&lat=-14.260057&lon=-170.649948&z=13&m=w"
    = some ⟨⟨-170649948, -6⟩, ⟨-14260057, -6⟩⟩ := by decide
example : get_point_from_map_url "/#lang=en&lat=-14.260057&z=13&m=w" = none := by decide
example : get_point_from_map_url "/#lang=en&lat=x&lon=1.5" = none := by decide
example : get_point_from_map_url "nothing" = none := by decide

/-! ## Data model: `GeoPoint`, `GeoLocation`, pages -/

/-- `GeoPoint` has no `__eq__`, so Python compares instances by object
identity; the model carries an allocation identity `oid` (distinct for
distinct allocations) next to the numeric fields. -/
structure GeoPoint where
  oid : Nat
  lon : PyFloat
  lat : PyFloat
deriving DecidableEq, Repr

/-- `GeoLocation` dataclass; `data` is the metadata dict (insertion
ordered, unique keys). -/
structure GeoLocation where
  url : String
  points : List GeoPoint
  data : List (String × String)
deriving DecidableEq, Repr

/-- Python `==` on `GeoPoint`s: default object identity. -/
def pyEqPoint (p q : GeoPoint) : Bool :=
  p.oid == q.oid

def pyEqPoints : List GeoPoint → List GeoPoint → Bool
  | [], [] => true
  | p :: ps, q :: qs => pyEqPoint p q && pyEqPoints ps qs
  | _, _ => false

/-- Python `==` on dicts: same key set, equal values, order-insensitive. -/
def pyEqDict (a b : List (String × String)) : Bool :=
  a.all (fun kv => b.lookup kv.1 == some kv.2)
    && b.all (fun kv => a.lookup kv.1 == some kv.2)

/-- Python `==` on `GeoLocation`s: dataclass equality compares the
`(url, points, data)` tuples, the points list elementwise with
`GeoPoint`'s identity equality. -/
def pyEqLoc (l m : GeoLocation) : Bool :=
  l.url == m.url && pyEqPoints l.points m.points && pyEqDict l.data m.data

/-- `WikimapiaCrawler.add_geo_location`: append unless the location has
no points or a `==`-equal location is already stored (a `GeoLocation`
instance is always truthy, so the leading `if geo_location` is vacuous;
the identity short-circuit of `in` cannot hit for a freshly built
location). -/
def add_geo_location (store : List GeoLocation) (geo_location : GeoLocation) : List GeoLocation :=
  if !geo_location.points.isEmpty && !(store.any fun e => pyEqLoc e geo_location) then
    store ++ [geo_location]
  else store

/-- An anchor inside an `li` tag: `.text` is always a string,
`.get('href')` may be `None`. -/
structure LiAnchor where
  text : String
  href : Option String
deriving DecidableEq, Repr

/-- An `li` element with its anchor children. -/
structure LiTag where
  anchors : List LiAnchor
deriving DecidableEq, Repr

/-- A parsed page, exposing exactly what the two extractor scans read:
the hrefs of `soup.find_all('a', href=True)` in document order, and the
`li` elements with their anchors. -/
structure Page where
  a_hrefs : List String
  lis : List LiTag
deriving DecidableEq, Repr

/-- `WikimapiaCrawler.get_linked_urls`: for each anchor href, skip falsy
hrefs, join against `url`, and yield only urls passing `is_base_url`. -/
def get_linked_urls (url : String) (a_hrefs : List String) : List String :=
  a_hrefs.filterMap fun path =>
    if path ≠ "" then
      let fullurl := urljoin url path
      if is_base_url fullurl url then some fullurl else none
    else none

/-- `WikimapiaCrawler.get_geo_locations`: an `li` with exactly two
anchors whose second has text `"map"` and a parseable map href yields a
`GeoLocation`; `startOid` numbers the freshly allocated `GeoPoint`s
(each call site passes oids unused by any live point). -/
def get_geo_locations (url : String) (lis : List LiTag) (startOid : Nat) : List GeoLocation :=
  match lis with
  | [] => []
  | li :: rest =>
    match li.anchors with
    | [a0, a1] =>
      if a1.text = "map" then
        match get_point_from_map_href a1.href with
        | some pv =>
          { url := urljoin url (a0.href.getD ""),
            points := [⟨startOid, pv.lon, pv.lat⟩],
            data := [("name", a0.text)] } :: get_geo_locations url rest (startOid + 1)
        | none => get_geo_locations url rest startOid
      else get_geo_locations url rest startOid
    | _ => get_geo_locations url rest startOid

/-! ## `SetAsyncioQueue` -/

/-- Python `set` membership-preserving add on a duplicate-free list. -/
def setAdd (s : List String) (x : String) : List String :=
  if s.contains x then s else s ++ [x]

/-- The `SetAsyncioQueue` state: the membership set `set_data`, the
FIFO buffer of the underlying `asyncio.Queue`, and its unfinished-task
counter (incremented by `put`, decremented by `task_done`). -/
structure SetAsyncioQueue where
  set_data : List String
  items : List String
  unfinished : Nat
deriving DecidableEq, Repr

/-- Errors observable from `SetAsyncioQueue.get`: the caller suspends on
an empty buffer; `set.remove` raises `KeyError` when the delivered item
is no longer tracked by `set_data`. -/
inductive GetErr where
  | wouldBlock
  | keyError
deriving DecidableEq, Repr

namespace SetAsyncioQueue

/-- `put`: `set_data.add(item)` (idempotent on the set) then the
unconditional buffer append of `asyncio.Queue.put`. -/
def put (q : SetAsyncioQueue) (item : String) : SetAsyncioQueue :=
  { set_data := setAdd q.set_data item,
    items := q.items ++ [item],
    unfinished := q.unfinished + 1 }

/-- `get`: dequeue the front item, then `set_data.remove(item)`. -/
def get (q : SetAsyncioQueue) : Except GetErr (String × SetAsyncioQueue) :=
  match q.items with
  | [] => .error .wouldBlock
  | item :: rest =>
    if q.set_data.contains item then
      .ok (item, { set_data := q.set_data.erase item, items := rest, unfinished := q.unfinished })
    else .error .keyError

/-- `__contains__`. -/
def mem (q : SetAsyncioQueue) (item : String) : Bool :=
  q.set_data.contains item

/-- `asyncio.Queue.task_done`: raises `ValueError` when called more
often than items were put. -/
def task_done (q : SetAsyncioQueue) : Option SetAsyncioQueue :=
  match q.unfinished with
  | 0 => none
  | n + 1 => some { q with unfinished := n }

end SetAsyncioQueue

/-! ## Crawler state and the worker body -/

/-- The mutable fields of a `WikimapiaCrawler` during the discovery
phase, plus the allocation counter for fresh `GeoPoint`s. -/
structure CrawlerState where
  urls_to_visit : SetAsyncioQueue
  visited_urls : List String
  geo_locations : List GeoLocation
  nextOid : Nat
deriving DecidableEq, Repr

/-- The guard of `WikimapiaCrawler.add_url_to_visit`, on the raw
visited-set/queue pair. -/
def add_url_to_visit_q (visited : List String) (q : SetAsyncioQueue) (url : String) :
    SetAsyncioQueue :=
  if !visited.contains url && !q.mem url then q.put url else q

/-- `WikimapiaCrawler.add_url_to_visit`. -/
def add_url_to_visit (s : CrawlerState) (url : String) : CrawlerState :=
  { s with urls_to_visit := add_url_to_visit_q s.visited_urls s.urls_to_visit url }

/-- `WikimapiaCrawler.crawl` after the page download: the first loop
rebinds the Python variable `url` to each linked url (so after the loop
`url` is the last yielded link, or still the page url when none was
yielded), and the location scan then runs against that rebound value. -/
def crawl (url : String) (page : Page) (s : CrawlerState) : CrawlerState :=
  let links := get_linked_urls url page.a_hrefs
  let s1 := links.foldl add_url_to_visit s
  let url2 := links.getLastD url
  let locs := get_geo_locations url2 page.lis s.nextOid
  { s1 with
    geo_locations := locs.foldl add_geo_location s1.geo_locations,
    nextOid := s.nextOid + locs.length }

/-- The body of one `WikimapiaCrawler.url_handler` iteration after the
dequeue: attempt the crawl (`site url0 = none` models `download_html`
raising, whose exception the `except` swallows), then the `finally`
block marks the url visited and acknowledges the item. -/
def url_handler_after_get (site : String → Option Page) (s1 : CrawlerState)
    (url0 : String) : Option CrawlerState :=
  let s2 :=
    match site url0 with
    | some page => crawl url0 page s1
    | none => s1
  match s2.urls_to_visit.task_done with
  | none => none
  | some q2 =>
    some { s2 with urls_to_visit := q2, visited_urls := setAdd s2.visited_urls url0 }

/-- One iteration of `WikimapiaCrawler.url_handler`: dequeue, then
`url_handler_after_get`.  `none` means the iteration does not complete
normally (empty queue: the worker suspends in `get`). -/
def url_handler_step (site : String → Option Page) (s : CrawlerState) : Option CrawlerState :=
  match s.urls_to_visit.get with
  | .error _ => none
  | .ok (url0, q1) => url_handler_after_get site { s with urls_to_visit := q1 } url0

/-! ## The concurrent discovery phase as a transition system

Worker interleavings are modelled at the granularity of the asyncio
event loop: a worker either dequeues a url (`opGet`), performs one
`add_url_to_visit` for some link found on its page (`opLink`), or
completes its url (`opFinish`: the `finally` block).  `opLink` allows an
arbitrary link, since page contents are arbitrary. -/

inductive CrawlOp where
  | opGet (w : Nat)
  | opLink (w : Nat) (u : String)
  | opFinish (w : Nat)
deriving DecidableEq, Repr

/-- A discovery-phase system state: the shared queue and visited set,
and for each worker the url it has dequeued but not yet completed. -/
structure CrawlSysState where
  queue : SetAsyncioQueue
  visited : List String
  workers : List (Option String)
deriving DecidableEq, Repr

def applyOp (s : CrawlSysState) (op : CrawlOp) : Option CrawlSysState :=
  match op with
  | .opGet w =>
    match s.workers.get? w with
    | some none =>
      match s.queue.get with
      | .ok (u, q1) => some { s with queue := q1, workers := s.workers.set w (some u) }
      | .error _ => none
    | _ => none
  | .opLink w u =>
    match s.workers.get? w with
    | some (some _) => some { s with queue := add_url_to_visit_q s.visited s.queue u }
    | _ => none
  | .opFinish w =>
    match s.workers.get? w with
    | some (some u) =>
      match s.queue.task_done with
      | some q1 =>
        some { queue := q1, visited := setAdd s.visited u, workers := s.workers.set w none }
      | none => none
    | _ => none

def runOps : CrawlSysState → List CrawlOp → Option CrawlSysState
  | s, [] => some s
  | s, op :: ops =>
    match applyOp s op with
    | some s1 => runOps s1 ops
    | none => none

/-- The state right after `run` seeds the queue with the resolved start
url, with `n` idle workers. -/
def initCrawlSys (seed : String) (n : Nat) : CrawlSysState :=
  { queue := add_url_to_visit_q [] ⟨[], [], 0⟩ seed,
    visited := [],
    workers := List.replicate n none }

/-- Reachability through legal interleavings of worker steps. -/
def ReachCrawl (seed : String) (n : Nat) (s : CrawlSysState) : Prop :=
  ∃ ops, runOps (initCrawlSys seed n) ops = some s

/-! ## Orchestrator, enrichment, output -/

/-- An anchor of the start page's `.linkslist` as read by
`find_location_in_page`: visible text and the value of its `href`
attribute.  (The model covers anchors that bear an `href` attribute,
possibly empty; for an attribute-less anchor the Python subscript
`a_tag['href']` would raise `KeyError`.) -/
structure NavAnchor where
  text : String
  href : String
deriving DecidableEq, Repr

/-- `WikimapiaCrawler.find_location_in_page` after the download: return
the first anchor with a truthy href whose text caselessly equals the
search name, else raise `NotFoundError` (the `.error` case). -/
def find_location_in_page (start_url search_name : String) (anchors : List NavAnchor) :
    Except Unit (String × String) :=
  match anchors with
  | [] => .error ()
  | a :: rest =>
    if a.href ≠ "" && caseless_equal a.text search_name then
      .ok (a.text, urljoin start_url a.href)
    else find_location_in_page start_url search_name rest

/-- `WikimapiaCrawler.can_be_location_page_url`. -/
def can_be_location_page_url (url : String) : Bool :=
  !strStartsWith (urlsplit url).path "/country/"

/-- Python `dict[k] = v`: update in place when the key exists, else
append. -/
def dictSet : List (String × String) → String → String → List (String × String)
  | [], k, v => [(k, v)]
  | kv :: rest, k, v =>
    if kv.1 = k then (kv.1, v) :: rest else kv :: dictSet rest k v

/-- Python `d |= other`: set every key of `other` in `d`, in order
(keys of `other` win). -/
def pyDictOr (d other : List (String × String)) : List (String × String) :=
  other.foldl (fun acc kv => dictSet acc kv.1 kv.2) d

/-- `WikimapiaCrawler.get_location_page_data` after its download: the
result dict has a `description` key exactly when the page has a
`place-description` element with truthy text (`descElem` is that
element's text when the element exists). -/
def get_location_page_data (descElem : Option String) : List (String × String) :=
  match descElem with
  | some t => if t ≠ "" then [("description", t)] else []
  | none => []

/-- `WikimapiaCrawler.location_handler` on one `GeoLocation`: skip
unless the url can be a location page; otherwise merge the fetched page
data, leaving the location untouched when the fetch raises (`.error`). -/
def location_handler (loc : GeoLocation) (fetch : Except Unit (Option String)) : GeoLocation :=
  if can_be_location_page_url loc.url then
    match fetch with
    | .error _ => loc
    | .ok descElem => { loc with data := pyDictOr loc.data (get_location_page_data descElem) }
  else loc

/-- A GeoJSON feature: point geometry `(lon, lat)` from the location's
first point, properties from its data dict. -/
structure Feature where
  geometry : PyFloat × PyFloat
  properties : List (String × String)
deriving DecidableEq, Repr

/-- `WikimapiaCrawler.build_geojson`. -/
def build_geojson (locs : List GeoLocation) : List Feature :=
  locs.filterMap fun loc =>
    match loc.points with
    | [] => none
    | p :: _ => some ⟨(p.lon, p.lat), loc.data⟩

/-- The discovery phase run to completion by a single worker (the
sequential semantics of the pool; `fuel` bounds the number of
iterations, the design assumes a finite site graph). -/
def crawlLoop : Nat → (String → Option Page) → CrawlerState → CrawlerState
  | 0, _, s => s
  | Nat.succ fuel, site, s =>
    match url_handler_step site s with
    | some s1 => crawlLoop fuel site s1
    | none => s

/-- The enrichment phase: `location_handler` over every stored location,
with `site2 url` the outcome of fetching that location page. -/
def enrichAll (site2 : String → Except Unit (Option String)) (s : CrawlerState) : CrawlerState :=
  { s with geo_locations := s.geo_locations.map fun loc => location_handler loc (site2 loc.url) }

/-- `WikimapiaCrawler.run`: resolve the search target on the start page
(`navList`), propagating `NotFoundError`; seed the queue; drain the
discovery phase; enrich; build the feature collection.  In the `.error`
case nothing after `find_location_in_page` is evaluated and no output
exists. -/
def run (fuel : Nat) (start_url location_name : String) (navList : List NavAnchor)
    (site : String → Option Page) (site2 : String → Except Unit (Option String)) :
    Except Unit (List Feature) :=
  match find_location_in_page start_url location_name navList with
  | .error e => .error e
  | .ok (_, location_url) =>
    let s0 : CrawlerState := ⟨⟨[], [], 0⟩, [], [], 0⟩
    let s1 := add_url_to_visit s0 location_url
    let s2 := crawlLoop fuel site s1
    let s3 := enrichAll site2 s2
    .ok (build_geojson s3.geo_locations)

/-- The queue consistency invariant the discovery phase maintains: the
pending buffer is duplicate-free and the membership set tracks exactly
the buffered urls. -/
def QueueInv (q : SetAsyncioQueue) : Prop :=
  q.items.Nodup ∧ q.set_data.Nodup ∧ ∀ u, u ∈ q.set_data ↔ u ∈ q.items

/-! ## Claim theorems -/

deriving instance DecidableEq for Except

/-- C10: putting the same url twice with no intervening get leaves the
membership set and the item buffer disagreeing — the url is buffered
twice but tracked once — and the second get delivering it fails with
`KeyError` in `set_data.remove`, so `get` is not total over states
reachable through the public put/get interface. -/
theorem C10_double_put_breaks_queue :
    let q0 : SetAsyncioQueue := ⟨[], [], 0⟩
    let q2 := (q0.put "u").put "u"
    q2.items = ["u", "u"] ∧ q2.set_data = ["u"]
      ∧ q2.get = .ok ("u", ⟨[], ["u"], 2⟩)
      ∧ (⟨[], ["u"], 2⟩ : SetAsyncioQueue).get = .error .keyError := by
  decide

/-- C2 counterexample: `put(url)` on an already-pending url is not a
no-op.  After a redundant put the membership set is unchanged but the
buffer holds the url twice, and the deliveries differ: the original
queue delivers the url once and then blocks, the double-put queue
delivers it once and then `get` raises `KeyError`. -/
theorem C2_put_not_noop_cex :
    let q1 := (⟨[], [], 0⟩ : SetAsyncioQueue).put "a"
    let q2 := q1.put "a"
    q1.mem "a" = true
      ∧ q2.set_data = q1.set_data
      ∧ q1.items = ["a"] ∧ q2.items = ["a", "a"] ∧ q2.items ≠ q1.items
      ∧ q1.get = .ok ("a", ⟨[], [], 1⟩)
      ∧ (⟨[], [], 1⟩ : SetAsyncioQueue).get = .error .wouldBlock
      ∧ q2.get = .ok ("a", ⟨[], ["a"], 2⟩)
      ∧ (⟨[], ["a"], 2⟩ : SetAsyncioQueue).get = .error .keyError := by
  decide

/-- C2 amended: `put(url)` when url is already pending leaves the
pending membership set unchanged, but it is not a no-op: the url is
appended to the item buffer again and the unfinished-task counter grows;
the pending-set no-op is the only part of the contract `put` itself
provides, deduplication of deliveries being enforced by the callers'
membership check before every put. -/
theorem C2_put_pending_set_unchanged (q : SetAsyncioQueue) (u : String)
    (h : q.mem u = true) :
    (q.put u).set_data = q.set_data
      ∧ (q.put u).items = q.items ++ [u]
      ∧ (q.put u).unfinished = q.unfinished + 1 := by
  refine ⟨?_, rfl, rfl⟩
  simp only [SetAsyncioQueue.put, SetAsyncioQueue.mem] at *
  have h2 : u ∈ q.set_data := by simpa using h
  simp [setAdd, h2]

theorem C2_put_pending_set_unchanged_witness :
    ((⟨["a"], ["a"], 1⟩ : SetAsyncioQueue).put "a").set_data = ["a"]
      ∧ ((⟨["a"], ["a"], 1⟩ : SetAsyncioQueue).put "a").items = ["a", "a"]
      ∧ ((⟨["a"], ["a"], 1⟩ : SetAsyncioQueue).put "a").unfinished = 2 :=
  C2_put_pending_set_unchanged ⟨["a"], ["a"], 1⟩ "a" (by decide)

/-- C1: adding extracted Locations is not idempotent and the store does
not keep identity urls unique.  Re-running extraction on the same page
allocates fresh `GeoPoint` objects; `GeoPoint` has no `__eq__`, so the
dataclass equality behind `geo_location not in self.geo_locations`
compares the points by identity and never matches, and the second,
structurally identical Location with the same identity url is appended. -/
theorem C1_reextraction_duplicates_store :
    let li : LiTag := ⟨[⟨"Arad", some "/15002/Arad"⟩,
                       ⟨"map", some "/#lang=en&lat=1.5&lon=2.5&z=13&m=w"⟩]⟩
    let url := "https://wikimapia.org/country/Israel/"
    let store1 := (get_geo_locations url [li] 0).foldl add_geo_location []
    let store2 := (get_geo_locations url [li] 1).foldl add_geo_location store1
    store1.map GeoLocation.url = ["https://wikimapia.org/15002/Arad"]
      ∧ store2.map GeoLocation.url
          = ["https://wikimapia.org/15002/Arad", "https://wikimapia.org/15002/Arad"]
      ∧ ¬ (store2.map GeoLocation.url).Nodup := by
  decide

/-- C6: the location scan is not given the page's own url when the link
scan yielded anything.  In `crawl` the `for url in
self.get_linked_urls(url, soup)` loop rebinds `url`, so
`get_geo_locations` receives the last yielded link; a relative location
href then resolves against that link instead of the page url. -/
theorem C6_location_scan_uses_shadowed_url :
    let page : Page :=
      ⟨["place", "/#lang=en&lat=1.5&lon=2.5&z=13&m=w", "Y/"],
       [⟨[⟨"Shop", some "place"⟩, ⟨"map", some "/#lang=en&lat=1.5&lon=2.5&z=13&m=w"⟩]⟩]⟩
    let url := "https://wikimapia.org/country/X/"
    let s0 : CrawlerState := ⟨⟨[], [], 0⟩, [], [], 0⟩
    get_linked_urls url page.a_hrefs
        = ["https://wikimapia.org/country/X/place", "https://wikimapia.org/country/X/Y/"]
      ∧ (crawl url page s0).geo_locations.map GeoLocation.url
          = ["https://wikimapia.org/country/X/Y/place"]
      ∧ urljoin url "place" = "https://wikimapia.org/country/X/place"
      ∧ (crawl url page s0).geo_locations.map GeoLocation.url ≠ [urljoin url "place"] := by
  decide

/-- C4: every url yielded by the link scan has the page url's authority
and a path extending the page url's path as a string prefix (strict or
equal) — the subtree bound enforced by the `is_base_url` filter. -/
theorem C4_linked_urls_stay_in_subtree (url : String) (a_hrefs : List String)
    (fu : String) (h : fu ∈ get_linked_urls url a_hrefs) :
    (urlsplit fu).netloc = (urlsplit url).netloc
      ∧ strStartsWith (urlsplit fu).path (urlsplit url).path = true := by
  rw [get_linked_urls, List.mem_filterMap] at h
  obtain ⟨a, _, hsome⟩ := h
  by_cases hne : a ≠ ""
  · rw [if_pos hne] at hsome
    by_cases hbase : is_base_url (urljoin url a) url = true
    · rw [if_pos hbase] at hsome
      cases hsome
      rw [is_base_url, Bool.and_eq_true, beq_iff_eq] at hbase
      exact hbase
    · rw [if_neg (by simpa using hbase)] at hsome
      cases hsome
  · rw [if_neg hne] at hsome
    cases hsome

theorem C4_linked_urls_stay_in_subtree_witness :
    (urlsplit "https://wikimapia.org/country/X/Y/").netloc
        = (urlsplit "https://wikimapia.org/country/X/").netloc
      ∧ strStartsWith (urlsplit "https://wikimapia.org/country/X/Y/").path
          (urlsplit "https://wikimapia.org/country/X/").path = true :=
  C4_linked_urls_stay_in_subtree "https://wikimapia.org/country/X/" ["Y/"]
    "https://wikimapia.org/country/X/Y/" (by decide)

/-- `find_location_in_page` raises `NotFoundError` exactly when every
anchor of the navigation list has a falsy href or a caselessly different
text. -/
theorem find_location_error_iff (start_url name : String) (anchors : List NavAnchor) :
    find_location_in_page start_url name anchors = .error ()
      ↔ ∀ a ∈ anchors, a.href = "" ∨ caseless_equal a.text name = false := by
  induction anchors with
  | nil => simp [find_location_in_page]
  | cons a rest ih =>
    rw [find_location_in_page]
    by_cases h : (a.href ≠ "" && caseless_equal a.text name) = true
    · rw [if_pos (by simpa using h)]
      rw [Bool.and_eq_true, decide_eq_true_eq] at h
      simp only [List.mem_cons]
      constructor
      · intro hfalse
        cases hfalse
      · intro hall
        rcases hall a (Or.inl rfl) with h1 | h2
        · exact absurd h1 h.1
        · rw [h.2] at h2
          cases h2
    · rw [if_neg (by simpa using h)]
      rw [ih]
      rw [Bool.and_eq_true, decide_eq_true_eq] at h
      simp only [List.mem_cons]
      constructor
      · intro hall b hb
        rcases hb with rfl | hb
        · by_cases he : b.href = ""
          · exact Or.inl he
          · right
            cases ht : caseless_equal b.text name
            · rfl
            · exact absurd ⟨he, ht⟩ h
        · exact hall b hb
      · intro hall b hb
        exact hall b (Or.inr hb)

/-- C8 counterexample: an anchor whose text compares caselessly equal to
the search name but whose href is empty still leads to `NotFoundError`,
so "NotFound iff no anchor compares caselessly equal" fails as stated. -/
theorem C8_notfound_despite_match_cex :
    caseless_equal "arad" "Arad" = true
      ∧ find_location_in_page "https://wikimapia.org/country/" "Arad"
          [⟨"arad", ""⟩] = .error ()
      ∧ run 1 "https://wikimapia.org/country/" "Arad" [⟨"arad", ""⟩]
          (fun _ => none) (fun _ => .error ()) = .error () := by
  decide

/-- C8 amended: `run` raises the NotFound outcome iff no anchor of the
start page's navigation list has a truthy (non-empty) href and text
caselessly equal to the search name; when it does, `run` returns the
error before the crawl, enrichment and output phases, so no partial
output exists (the error carries none). -/
theorem C8_run_notfound_iff (fuel : Nat) (start_url name : String)
    (navList : List NavAnchor) (site : String → Option Page)
    (site2 : String → Except Unit (Option String)) :
    run fuel start_url name navList site site2 = .error ()
      ↔ ∀ a ∈ navList, a.href = "" ∨ caseless_equal a.text name = false := by
  rw [← find_location_error_iff start_url name navList]
  rw [run]
  cases h : find_location_in_page start_url name navList with
  | error e => cases e; simp
  | ok v => simp

/-- Lookup after a Python dict set: the written key reads the new value,
every other key is untouched. -/
theorem dictSet_lookup (d : List (String × String)) (k v k2 : String) :
    (dictSet d k v).lookup k2 = if k2 = k then some v else d.lookup k2 := by
  induction d with
  | nil =>
    by_cases h : k2 = k
    · subst h
      simp [dictSet, List.lookup]
    · have hb : (k2 == k) = false := beq_eq_false_iff_ne.mpr h
      simp [dictSet, List.lookup, hb, h]
  | cons kv rest ih =>
    by_cases h1 : kv.1 = k
    · rw [dictSet, if_pos h1]
      by_cases h2 : k2 = k
      · have hb : (k2 == kv.1) = true := beq_iff_eq.mpr (h2.trans h1.symm)
        simp only [List.lookup, hb]
        rw [if_pos h2]
      · have hb : (k2 == kv.1) = false :=
          beq_eq_false_iff_ne.mpr (fun he => h2 (he.trans h1))
        simp [List.lookup, hb, h2]
    · rw [dictSet, if_neg h1]
      by_cases h3 : k2 = kv.1
      · have hb : (k2 == kv.1) = true := beq_iff_eq.mpr h3
        have h4 : ¬ k2 = k := fun he => h1 (h3.symm.trans he)
        simp [List.lookup, hb, h4]
      · have hb : (k2 == kv.1) = false := beq_eq_false_iff_ne.mpr h3
        simp [List.lookup, hb, ih]

/-- C9: enrichment of one stored Location.  It is skipped when the url
has the directory shape (path begins with `/country/`); a fetch failure
or an absent/empty description leaves the location untouched; a found
description is merged with the new key winning and every other metadata
key, the identity url and the points unchanged. -/
theorem C9_enrichment_cases (loc : GeoLocation) (fetch : Except Unit (Option String)) :
    (strStartsWith (urlsplit loc.url).path "/country/" = true →
        location_handler loc fetch = loc)
      ∧ location_handler loc (.error ()) = loc
      ∧ location_handler loc (.ok none) = loc
      ∧ location_handler loc (.ok (some "")) = loc
      ∧ ∀ t, t ≠ "" → can_be_location_page_url loc.url = true →
          (location_handler loc (.ok (some t))).url = loc.url
          ∧ (location_handler loc (.ok (some t))).points = loc.points
          ∧ ∀ k2, (location_handler loc (.ok (some t))).data.lookup k2
              = if k2 = "description" then some t else loc.data.lookup k2 := by
  refine ⟨?_, ?_, ?_, ?_, ?_⟩
  · intro h
    have hcan : can_be_location_page_url loc.url = false := by
      rw [can_be_location_page_url, h]
      rfl
    rw [location_handler.eq_def, hcan]
    rfl
  · rw [location_handler]
    split <;> rfl
  · rw [location_handler]
    split <;> rfl
  · rw [location_handler]
    split <;> rfl
  · intro t ht hcan
    rw [location_handler, hcan]
    rw [get_location_page_data, if_pos ht]
    refine ⟨rfl, rfl, ?_⟩
    intro k2
    exact dictSet_lookup loc.data "description" t k2

/-- C3: coordinate parsing.  The example fragment is rewritten by the
regex step to a conventional query string and yields the point
(lon = -170.649948, lat = -14.260057); the same fragment without `lon`
yields no point; and in general a point is produced exactly when the
flattened parameters hold truthy `lat` and `lon` values that parse as
floats (the function is total, the `try`/`except` turning every failure
into `None`). -/
theorem C3_coordinate_parsing :
    reSubLat "/#lang=en&lat=-14.260057&lon=-170.649948&z=13&m=w"
        = "?lat=-14.260057&lon=-170.649948&z=13&m=w"
      ∧ get_point_from_map_url "/#lang=en&lat=-14.260057&lon=-170.649948&z=13&m=w"
          = some ⟨⟨-170649948, -6⟩, ⟨-14260057, -6⟩⟩
      ∧ get_point_from_map_url "/#lang=en&lat=-14.260057&z=13&m=w" = none
      ∧ ∀ murl p, get_point_from_map_url murl = some p ↔
          ((∃ lv, (get_params_from_map_url murl).lookup "lat" = some lv
              ∧ pvalTruthy lv = true ∧ pvalFloat lv = some p.lat)
            ∧ (∃ ov, (get_params_from_map_url murl).lookup "lon" = some ov
              ∧ pvalTruthy ov = true ∧ pvalFloat ov = some p.lon)) := by
  refine ⟨by decide, by decide, by decide, ?_⟩
  intro murl p
  simp only [get_point_from_map_url]
  constructor
  · intro h
    cases hlat : (get_params_from_map_url murl).lookup "lat" with
    | none =>
      rw [hlat] at h
      cases h
    | some lv =>
      rw [hlat] at h
      cases hlon : (get_params_from_map_url murl).lookup "lon" with
      | none =>
        rw [hlon] at h
        cases h
      | some ov =>
        rw [hlon] at h
        have h2 : (if (pvalTruthy lv && pvalTruthy ov) = true then
              match pvalFloat lv, pvalFloat ov with
              | some la, some lo => some ({ lon := lo, lat := la } : GeoPointVal)
              | _, _ => none
            else none) = some p := h
        by_cases htr : (pvalTruthy lv && pvalTruthy ov) = true
        · rw [if_pos htr] at h2
          rw [Bool.and_eq_true] at htr
          cases hf1 : pvalFloat lv with
          | none =>
            rw [hf1] at h2
            exact absurd h2 (by simp)
          | some la =>
            rw [hf1] at h2
            cases hf2 : pvalFloat ov with
            | none =>
              rw [hf2] at h2
              exact absurd h2 (by simp)
            | some lo =>
              rw [hf2] at h2
              have h3 : some ({ lon := lo, lat := la } : GeoPointVal) = some p := h2
              injection h3 with h4
              cases h4
              exact ⟨⟨lv, rfl, htr.1, hf1⟩, ⟨ov, rfl, htr.2, hf2⟩⟩
        · rw [if_neg htr] at h2
          cases h2
  · rintro ⟨⟨lv, hlat, ht1, hf1⟩, ⟨ov, hlon, ht2, hf2⟩⟩
    rw [hlat, hlon]
    show (if (pvalTruthy lv && pvalTruthy ov) = true then
          match pvalFloat lv, pvalFloat ov with
          | some la, some lo => some ({ lon := lo, lat := la } : GeoPointVal)
          | _, _ => none
        else none) = some p
    rw [if_pos (by rw [ht1, ht2]; rfl), hf1, hf2]

/-- `put` of an untracked url preserves queue consistency. -/
theorem queueInv_put {q : SetAsyncioQueue} {u : String} (hq : QueueInv q)
    (hnot : q.mem u = false) : QueueInv (q.put u) := by
  obtain ⟨hi, hs, hiff⟩ := hq
  have hus : u ∉ q.set_data := by
    intro hm
    rw [SetAsyncioQueue.mem] at hnot
    simp [hm] at hnot
  have hui : u ∉ q.items := fun hm => hus ((hiff u).mpr hm)
  have hset : setAdd q.set_data u = q.set_data ++ [u] := by
    rw [setAdd, if_neg]
    simp [hus]
  refine ⟨?_, ?_, ?_⟩
  · exact List.Nodup.append hi (List.nodup_singleton u)
      ((List.disjoint_singleton).mpr hui)
  · show (setAdd q.set_data u).Nodup
    rw [hset]
    exact List.Nodup.append hs (List.nodup_singleton u)
      ((List.disjoint_singleton).mpr hus)
  · intro v
    show v ∈ setAdd q.set_data u ↔ v ∈ q.items ++ [u]
    rw [hset]
    simp [hiff v]

/-- `get` preserves queue consistency. -/
theorem queueInv_get {q q1 : SetAsyncioQueue} {u : String} (hq : QueueInv q)
    (h : q.get = .ok (u, q1)) : QueueInv q1 := by
  obtain ⟨hi, hs, hiff⟩ := hq
  rw [SetAsyncioQueue.get] at h
  cases hit : q.items with
  | nil =>
    rw [hit] at h
    cases h
  | cons item rest =>
    rw [hit] at h
    have h0 : (if q.set_data.contains item = true then
          Except.ok (item, SetAsyncioQueue.mk (q.set_data.erase item) rest q.unfinished)
        else Except.error GetErr.keyError) = Except.ok (u, q1) := h
    by_cases hc : q.set_data.contains item = true
    · rw [if_pos hc] at h0
      injection h0 with h2
      injection h2 with h3 h4
      subst h3
      cases h4
      rw [hit] at hi
      have hrest : rest.Nodup := hi.of_cons
      have hnotin : item ∉ rest := (List.nodup_cons.mp hi).1
      refine ⟨hrest, hs.erase item, ?_⟩
      intro v
      rw [hs.mem_erase_iff, hiff v, hit]
      simp only [List.mem_cons]
      constructor
      · rintro ⟨hne, hv | hv⟩
        · exact absurd hv hne
        · exact hv
      · intro hv
        exact ⟨fun he => hnotin (he ▸ hv), Or.inr hv⟩
    · rw [if_neg hc] at h0
      cases h0

/-- `task_done` does not touch the set or the buffer. -/
theorem queueInv_task_done {q q1 : SetAsyncioQueue} (hq : QueueInv q)
    (h : q.task_done = some q1) : QueueInv q1 := by
  rw [SetAsyncioQueue.task_done] at h
  cases hn : q.unfinished with
  | zero =>
    rw [hn] at h
    cases h
  | succ n =>
    rw [hn] at h
    injection h with h2
    cases h2
    exact hq

/-- The guarded add preserves queue consistency. -/
theorem queueInv_addurl (visited : List String) (q : SetAsyncioQueue) (u : String)
    (hq : QueueInv q) : QueueInv (add_url_to_visit_q visited q u) := by
  rw [add_url_to_visit_q]
  by_cases hg : (!visited.contains u && !q.mem u) = true
  · rw [if_pos hg]
    rw [Bool.and_eq_true] at hg
    exact queueInv_put hq (by simpa using hg.2)
  · rw [if_neg hg]
    exact hq

/-- Every legal worker step preserves queue consistency. -/
theorem applyOp_queueInv {s s1 : CrawlSysState} {op : CrawlOp}
    (hq : QueueInv s.queue) (h : applyOp s op = some s1) : QueueInv s1.queue := by
  cases op with
  | opGet w =>
    rw [applyOp] at h
    cases hw : s.workers.get? w with
    | none =>
      rw [hw] at h
      cases h
    | some ow =>
      cases ow with
      | none =>
        rw [hw] at h
        cases hg : s.queue.get with
        | error e =>
          rw [hg] at h
          cases h
        | ok r =>
          obtain ⟨u, q1⟩ := r
          rw [hg] at h
          injection h with h2
          cases h2
          exact queueInv_get hq hg
      | some v =>
        rw [hw] at h
        cases h
  | opLink w u =>
    rw [applyOp] at h
    cases hw : s.workers.get? w with
    | none =>
      rw [hw] at h
      cases h
    | some ow =>
      cases ow with
      | none =>
        rw [hw] at h
        cases h
      | some v =>
        rw [hw] at h
        injection h with h2
        cases h2
        exact queueInv_addurl s.visited s.queue u hq
  | opFinish w =>
    rw [applyOp] at h
    cases hw : s.workers.get? w with
    | none =>
      rw [hw] at h
      cases h
    | some ow =>
      cases ow with
      | none =>
        rw [hw] at h
        cases h
      | some u =>
        rw [hw] at h
        cases htd : s.queue.task_done with
        | none =>
          rw [htd] at h
          cases h
        | some q1 =>
          rw [htd] at h
          injection h with h2
          cases h2
          exact queueInv_task_done hq htd

/-- Queue consistency holds along every legal run. -/
theorem runOps_queueInv : ∀ (ops : List CrawlOp) (s s1 : CrawlSysState),
    QueueInv s.queue → runOps s ops = some s1 → QueueInv s1.queue := by
  intro ops
  induction ops with
  | nil =>
    intro s s1 hq h
    rw [runOps] at h
    injection h with h2
    cases h2
    exact hq
  | cons op rest ih =>
    intro s s1 hq h
    rw [runOps] at h
    cases ha : applyOp s op with
    | none =>
      rw [ha] at h
      cases h
    | some s2 =>
      rw [ha] at h
      exact ih s2 s1 (applyOp_queueInv hq ha) h

theorem initCrawlSys_queueInv (seed : String) (n : Nat) :
    QueueInv (initCrawlSys seed n).queue :=
  queueInv_addurl [] ⟨[], [], 0⟩ seed ⟨List.nodup_nil, List.nodup_nil, by simp⟩

/-- C5 counterexample: a legal interleaving (one worker dequeues the seed
url, its page links back to the seed so the guarded add re-enqueues it,
and the worker then completes) reaches a state in which the url is a
member of the pending set and of the visited set at the same time. -/
theorem C5_pending_and_visited_cex :
    runOps (initCrawlSys "p" 1) [CrawlOp.opGet 0, CrawlOp.opLink 0 "p", CrawlOp.opFinish 0]
        = some ⟨⟨["p"], ["p"], 1⟩, ["p"], [none]⟩
      ∧ (⟨⟨["p"], ["p"], 1⟩, ["p"], [none]⟩ : CrawlSysState).queue.mem "p" = true
      ∧ (⟨⟨["p"], ["p"], 1⟩, ["p"], [none]⟩ : CrawlSysState).visited.contains "p" = true := by
  decide

/-- C5 amended: in every reachable state of the concurrent crawl the
pending buffer holds each url at most once (no url is enqueued twice
while pending) and the membership set tracks exactly the buffered urls;
but a url that a worker has dequeued and not yet completed may be
re-enqueued by another worker, after which it is simultaneously pending
and visited, and the (idempotent) visited-set insertion runs again for
it when the second crawl completes. -/
theorem C5_pending_buffer_nodup (seed : String) (n : Nat) (s : CrawlSysState)
    (h : ReachCrawl seed n s) :
    s.queue.items.Nodup ∧ s.queue.set_data.Nodup
      ∧ ∀ u, u ∈ s.queue.set_data ↔ u ∈ s.queue.items := by
  obtain ⟨ops, hops⟩ := h
  exact runOps_queueInv ops _ s (initCrawlSys_queueInv seed n) hops

theorem C5_pending_buffer_nodup_witness :
    (initCrawlSys "p" 1).queue.items.Nodup :=
  (C5_pending_buffer_nodup "p" 1 (initCrawlSys "p" 1) ⟨[], rfl⟩).1

/-- A url is a member of the visited set right after its `set.add`. -/
theorem setAdd_mem (l : List String) (x : String) : x ∈ setAdd l x := by
  rw [setAdd]
  by_cases h : l.contains x = true
  · rw [if_pos h]
    simpa using h
  · rw [if_neg h]
    exact List.mem_append_right l (List.mem_singleton_self x)

/-- The guarded link adds never touch the visited set. -/
theorem foldl_addurl_visited (l : List String) (s : CrawlerState) :
    (l.foldl add_url_to_visit s).visited_urls = s.visited_urls := by
  induction l generalizing s with
  | nil => rfl
  | cons a rest ih =>
    rw [List.foldl_cons, ih]
    rfl

/-- `crawl` never touches the visited set (only `url_handler` does). -/
theorem crawl_visited (url : String) (page : Page) (s : CrawlerState) :
    (crawl url page s).visited_urls = s.visited_urls :=
  foldl_addurl_visited (get_linked_urls url page.a_hrefs) s

/-- One guarded add moves the unfinished counter and the buffer length
in lockstep. -/
theorem addurlq_acct (visited : List String) (q : SetAsyncioQueue) (u : String) :
    (add_url_to_visit_q visited q u).unfinished + q.items.length
      = q.unfinished + (add_url_to_visit_q visited q u).items.length := by
  rw [add_url_to_visit_q]
  by_cases hg : (!visited.contains u && !q.mem u) = true
  · rw [if_pos hg]
    show q.unfinished + 1 + q.items.length = q.unfinished + (q.items ++ [u]).length
    rw [List.length_append, List.length_singleton]
    omega
  · rw [if_neg hg]

theorem addurlq_unfinished_le (visited : List String) (q : SetAsyncioQueue) (u : String) :
    q.unfinished ≤ (add_url_to_visit_q visited q u).unfinished := by
  rw [add_url_to_visit_q]
  by_cases hg : (!visited.contains u && !q.mem u) = true
  · rw [if_pos hg]
    exact Nat.le_succ q.unfinished
  · rw [if_neg hg]

theorem foldl_addurl_acct (l : List String) (s : CrawlerState) :
    (l.foldl add_url_to_visit s).urls_to_visit.unfinished + s.urls_to_visit.items.length
      = s.urls_to_visit.unfinished
        + (l.foldl add_url_to_visit s).urls_to_visit.items.length := by
  induction l generalizing s with
  | nil => rfl
  | cons a rest ih =>
    rw [List.foldl_cons]
    have h1 := addurlq_acct s.visited_urls s.urls_to_visit a
    have h2 := ih (add_url_to_visit s a)
    have e : (add_url_to_visit s a).urls_to_visit
        = add_url_to_visit_q s.visited_urls s.urls_to_visit a := rfl
    rw [e] at h2
    omega

theorem foldl_addurl_unfinished_le (l : List String) (s : CrawlerState) :
    s.urls_to_visit.unfinished ≤ (l.foldl add_url_to_visit s).urls_to_visit.unfinished := by
  induction l generalizing s with
  | nil => exact Nat.le_refl _
  | cons a rest ih =>
    rw [List.foldl_cons]
    exact Nat.le_trans (addurlq_unfinished_le s.visited_urls s.urls_to_visit a)
      (ih (add_url_to_visit s a))

theorem crawl_queue_acct (url : String) (page : Page) (s : CrawlerState) :
    (crawl url page s).urls_to_visit.unfinished + s.urls_to_visit.items.length
      = s.urls_to_visit.unfinished + (crawl url page s).urls_to_visit.items.length :=
  foldl_addurl_acct (get_linked_urls url page.a_hrefs) s

theorem crawl_unfinished_le (url : String) (page : Page) (s : CrawlerState) :
    s.urls_to_visit.unfinished ≤ (crawl url page s).urls_to_visit.unfinished :=
  foldl_addurl_unfinished_le (get_linked_urls url page.a_hrefs) s

/-- C7: for every dequeued url, whether the crawl succeeds or its fetch
raises, the iteration completes (never halting the worker), the url is
added to the visited set, the queue acknowledgment happens exactly once
(the unfinished counter moves in lockstep with the buffer: one net
completion), and on failure the location store and the remaining queue
are exactly as the dequeue left them, so other urls' locations are
unaffected. -/
theorem C7_worker_iteration (site : String → Option Page) (s : CrawlerState)
    (url0 : String) (q1 : SetAsyncioQueue)
    (hget : s.urls_to_visit.get = Except.ok (url0, q1))
    (hunf : 0 < s.urls_to_visit.unfinished) :
    ∃ s2, url_handler_step site s = some s2
      ∧ s2.visited_urls = setAdd s.visited_urls url0
      ∧ url0 ∈ s2.visited_urls
      ∧ s2.urls_to_visit.unfinished + s.urls_to_visit.items.length
          = s.urls_to_visit.unfinished + s2.urls_to_visit.items.length
      ∧ (site url0 = none → s2.geo_locations = s.geo_locations
          ∧ s2.urls_to_visit.items = q1.items
          ∧ s2.urls_to_visit.set_data = q1.set_data
          ∧ s2.urls_to_visit.unfinished + 1 = s.urls_to_visit.unfinished) := by
  have hstep : url_handler_step site s
      = url_handler_after_get site { s with urls_to_visit := q1 } url0 := by
    rw [url_handler_step, hget]
  have hga : s.urls_to_visit.items = url0 :: q1.items
      ∧ q1.set_data = s.urls_to_visit.set_data.erase url0
      ∧ q1.unfinished = s.urls_to_visit.unfinished := by
    rw [SetAsyncioQueue.get] at hget
    cases hit : s.urls_to_visit.items with
    | nil =>
      rw [hit] at hget
      cases hget
    | cons item rest =>
      rw [hit] at hget
      have h0 : (if s.urls_to_visit.set_data.contains item = true then
            Except.ok (item, SetAsyncioQueue.mk (s.urls_to_visit.set_data.erase item)
              rest s.urls_to_visit.unfinished)
          else Except.error GetErr.keyError) = Except.ok (url0, q1) := hget
      by_cases hc : s.urls_to_visit.set_data.contains item = true
      · rw [if_pos hc] at h0
        injection h0 with h2
        injection h2 with h3 h4
        subst h3
        cases h4
        exact ⟨rfl, rfl, rfl⟩
      · rw [if_neg hc] at h0
        cases h0
  obtain ⟨hitems, hsetd, hunfeq⟩ := hga
  have hlen : s.urls_to_visit.items.length = q1.items.length + 1 := by
    rw [hitems]
    rfl
  cases hsite : site url0 with
  | none =>
    cases hu : q1.unfinished with
    | zero =>
      rw [hunfeq] at hu
      omega
    | succ k =>
      have htd : q1.task_done = some (SetAsyncioQueue.mk q1.set_data q1.items k) := by
        rw [SetAsyncioQueue.task_done, hu]
      refine ⟨{ urls_to_visit := SetAsyncioQueue.mk q1.set_data q1.items k,
                visited_urls := setAdd s.visited_urls url0,
                geo_locations := s.geo_locations,
                nextOid := s.nextOid },
              ?_, rfl, setAdd_mem s.visited_urls url0, ?_, ?_⟩
      · rw [hstep, url_handler_after_get, hsite]
        show (match q1.task_done with
              | none => none
              | some q2 => some (CrawlerState.mk q2 (setAdd s.visited_urls url0)
                  s.geo_locations s.nextOid))
            = some (CrawlerState.mk (SetAsyncioQueue.mk q1.set_data q1.items k)
                (setAdd s.visited_urls url0) s.geo_locations s.nextOid)
        rw [htd]
      · show k + s.urls_to_visit.items.length
            = s.urls_to_visit.unfinished + q1.items.length
        omega
      · intro _
        refine ⟨rfl, rfl, rfl, ?_⟩
        show k + 1 = s.urls_to_visit.unfinished
        omega
  | some page =>
    set sc : CrawlerState := crawl url0 page { s with urls_to_visit := q1 } with hsc
    have e1 : ({ s with urls_to_visit := q1 } : CrawlerState).urls_to_visit = q1 := rfl
    have hacct := crawl_queue_acct url0 page { s with urls_to_visit := q1 }
    rw [e1, ← hsc] at hacct
    have hle := crawl_unfinished_le url0 page { s with urls_to_visit := q1 }
    rw [e1, ← hsc] at hle
    have hvis := crawl_visited url0 page { s with urls_to_visit := q1 }
    rw [← hsc] at hvis
    cases hm : sc.urls_to_visit.unfinished with
    | zero =>
      rw [hm] at hle
      omega
    | succ m =>
      have htd : sc.urls_to_visit.task_done
          = some (SetAsyncioQueue.mk sc.urls_to_visit.set_data sc.urls_to_visit.items m) := by
        rw [SetAsyncioQueue.task_done, hm]
      refine ⟨CrawlerState.mk
                (SetAsyncioQueue.mk sc.urls_to_visit.set_data sc.urls_to_visit.items m)
                (setAdd sc.visited_urls url0) sc.geo_locations sc.nextOid,
              ?_, ?_, setAdd_mem _ url0, ?_, ?_⟩
      · rw [hstep, url_handler_after_get, hsite]
        show (match sc.urls_to_visit.task_done with
              | none => none
              | some q2 => some (CrawlerState.mk q2 (setAdd sc.visited_urls url0)
                  sc.geo_locations sc.nextOid))
            = some (CrawlerState.mk
                (SetAsyncioQueue.mk sc.urls_to_visit.set_data sc.urls_to_visit.items m)
                (setAdd sc.visited_urls url0) sc.geo_locations sc.nextOid)
        rw [htd]
      · show setAdd sc.visited_urls url0 = setAdd s.visited_urls url0
        rw [hvis]
      · show m + s.urls_to_visit.items.length
            = s.urls_to_visit.unfinished + sc.urls_to_visit.items.length
        omega
      · intro hnone
        cases hnone

theorem C7_worker_iteration_witness :
    ∃ s2, url_handler_step (fun _ => none)
        (⟨⟨["u"], ["u"], 1⟩, [], [], 0⟩ : CrawlerState) = some s2
      ∧ "u" ∈ s2.visited_urls := by
  obtain ⟨s2, h1, _, h3, _, _⟩ :=
    C7_worker_iteration (fun _ => none) ⟨⟨["u"], ["u"], 1⟩, [], [], 0⟩ "u"
      ⟨[], [], 1⟩ (by decide) (by decide)
  exact ⟨s2, h1, h3⟩
